import Mathlib

/-!
Verification of the Vorify-ME API (`app.py`), a FastAPI server that
classifies an uploaded audio file as human or AI-generated speech.

Shallow embedding conventions:
* Raw uploaded bytes are `List ℕ`.
* The library front end of `audio_to_spectrogram` (lines 56-60 of
  `app.py`: `librosa.load`, `librosa.feature.melspectrogram` with
  `n_mels=128`, `librosa.power_to_db`) is a pure black box.  It is
  passed in as a function `logMel : List ℕ → Option (List ℚ)` whose
  result is the log-mel array `S_DB` flattened in C order (the order
  `np.resize` ravels it in); `none` models the exception path that the
  `except` clause of `audio_to_spectrogram` turns into `None`.
* Array values are exact rationals.  IEEE non-finite values (the NaN
  produced by the `0/0` of min-max normalization on a constant array)
  are modelled explicitly: a normalized entry is `Option ℚ`, `none`
  standing for a non-finite float.
* `model.predict(x)[0][0]` is a pure function `m : NDArray → ℚ` of the
  whole input tensor; the model being `None` (load failure at startup,
  lines 42-47) is `Option` on that function.
* Python's `round(x, 2)` is modelled as exact rounding to two decimal
  places (`pyRound2`); the claims never hinge on float ties, so the
  half-even/half-up difference is immaterial.
-/

/-- An n-dimensional numpy array: its shape and its data flattened in
C order.  Entries are `Option ℚ`; `none` models a non-finite float. -/
structure NDArray where
  shape : List ℕ
  data : List (Option ℚ)
deriving DecidableEq, Repr

/-- HTTP responses the server produces: the prediction JSON body of
`predict_audio` (line 104-107), the static message of `root`
(line 119), and `JSONResponse(status_code=..., content={"error": ...})`. -/
inductive Response where
  | prediction (label : String) (confidence : ℚ)
  | message (text : String)
  | error (status : ℕ) (msg : String)
deriving DecidableEq, Repr

/-- Requests the app routes: `GET /` and `POST /predict/` with the
uploaded file's bytes. -/
inductive Request where
  | getRoot
  | postPredict (file_bytes : List ℕ)

/-- Cycle through a list to produce exactly `n` elements, restarting
from `orig` when the current tail runs out; an empty source is padded
with zeros.  This is the repetition rule of `np.resize`. -/
def cycleTake (orig : List ℚ) : ℕ → List ℚ → List ℚ
  | 0, _ => []
  | Nat.succ n, a :: rest => a :: cycleTake orig n rest
  | Nat.succ n, [] =>
    match orig with
    | [] => List.replicate (n + 1) 0
    | a :: rest => a :: cycleTake orig n rest

/-- Flat-data semantics of `np.resize(S_DB, (128, 128))` (line 63):
the raveled input repeated cyclically to the requested total size. -/
def npResizeData (xs : List ℚ) (n : ℕ) : List ℚ :=
  cycleTake xs n xs

/-- Semantics of numpy `.min()` on the (always nonempty) resized
array; the `[]` case is unreachable and padded with 0. -/
def arrMin : List ℚ → ℚ
  | [] => 0
  | a :: rest => rest.foldl min a

/-- Semantics of numpy `.max()` on the (always nonempty) resized
array. -/
def arrMax : List ℚ → ℚ
  | [] => 0
  | a :: rest => rest.foldl max a

/-- Min-max normalization, line 66:
`S_DB = (S_DB - S_DB.min()) / (S_DB.max() - S_DB.min())`.
When the array is constant the denominator is zero and every entry is
the float NaN (`0/0`), modelled as `none`. -/
def normalizeData (xs : List ℚ) : List (Option ℚ) :=
  let mn := arrMin xs
  let mx := arrMax xs
  xs.map fun x => if mx - mn = 0 then none else some ((x - mn) / (mx - mn))

/-- Lines 53-70 of `app.py`: `audio_to_spectrogram`.  The library
front end `logMel` yields the flattened 128-row log-mel array (or
`none` on exception, which the function maps to `None`); the function
then applies `np.resize` to 128x128 and min-max normalizes. -/
def audio_to_spectrogram (logMel : List ℕ → Option (List ℚ))
    (file_bytes : List ℕ) : Option NDArray :=
  match logMel file_bytes with
  | none => none
  | some flat => some ⟨[128, 128], normalizeData (npResizeData flat (128 * 128))⟩

/-- Line 91: `spectrogram = spectrogram[np.newaxis, ..., np.newaxis]` —
prepend a batch axis and append a channel axis; the data is unchanged. -/
def addBatchChannel (a : NDArray) : NDArray :=
  ⟨1 :: a.shape ++ [1], a.data⟩

/-- Python's `round(x, 2)` on line 106, as exact rounding of a
rational to two decimal places. -/
def pyRound2 (x : ℚ) : ℚ :=
  ((round (x * 100) : ℤ) : ℚ) / 100

/-- Lines 77-111 of `app.py`: the `POST /predict/` handler.
`model` is `None` or the loaded predictor (`model.predict(·)[0][0]`
as a pure scalar-valued function of the input tensor), `logMel` the
library front end of the feature extractor, `file_bytes` the uploaded
file's contents.  The literal `1/2` is the source's `0.5`. -/
def predict_audio (model : Option (NDArray → ℚ))
    (logMel : List ℕ → Option (List ℚ)) (file_bytes : List ℕ) : Response :=
  match model with
  | none => Response.error 500 "Model not loaded on server."
  | some m =>
    match audio_to_spectrogram logMel file_bytes with
    | none => Response.error 400 "Could not process audio file."
    | some spectrogram =>
      let pred := m (addBatchChannel spectrogram)
      if pred < 1/2 then
        Response.prediction "HUMAN" (pyRound2 ((1 - pred) * 100))
      else
        Response.prediction "AI-GENERATED" (pyRound2 (pred * 100))

/-- Lines 117-119 of `app.py`: the `GET /` handler. -/
def root : Response :=
  Response.message "🎧 Deepfake Audio Detector API is running!"

/-- The app's routing (`@app.get("/")`, `@app.post("/predict/")`):
dispatch a request to its handler. -/
def handle_request (model : Option (NDArray → ℚ))
    (logMel : List ℕ → Option (List ℚ)) : Request → Response
  | Request.getRoot => root
  | Request.postPredict file_bytes => predict_audio model logMel file_bytes

/-! ### Helper lemmas about the embedded array operations -/

lemma cycleTake_zero (orig cur : List ℚ) : cycleTake orig 0 cur = [] := rfl

lemma cycleTake_succ_cons (orig : List ℚ) (n : ℕ) (a : ℚ) (rest : List ℚ) :
    cycleTake orig (n + 1) (a :: rest) = a :: cycleTake orig n rest := rfl

lemma cycleTake_succ_nil_cons (a : ℚ) (rest : List ℚ) (n : ℕ) :
    cycleTake (a :: rest) (n + 1) [] = a :: cycleTake (a :: rest) n rest := rfl

lemma cycleTake_succ_nil_nil (n : ℕ) :
    cycleTake [] (n + 1) [] = List.replicate (n + 1) 0 := rfl

lemma cycleTake_length (orig : List ℚ) :
    ∀ (n : ℕ) (cur : List ℚ), (cycleTake orig n cur).length = n := by
  intro n
  induction n with
  | zero => intro cur; rfl
  | succ m ih =>
    intro cur
    cases cur with
    | cons a rest => rw [cycleTake_succ_cons, List.length_cons, ih]
    | nil =>
      cases orig with
      | nil => rw [cycleTake_succ_nil_nil, List.length_replicate]
      | cons a rest => rw [cycleTake_succ_nil_cons, List.length_cons, ih]

lemma npResizeData_length (xs : List ℚ) (n : ℕ) :
    (npResizeData xs n).length = n :=
  cycleTake_length xs n xs

lemma normalizeData_length (xs : List ℚ) :
    (normalizeData xs).length = xs.length := by
  unfold normalizeData
  exact List.length_map xs _

lemma cycleTake_single_nil (c : ℚ) :
    ∀ n : ℕ, cycleTake [c] n [] = List.replicate n c := by
  intro n
  induction n with
  | zero => rfl
  | succ m ih => rw [cycleTake_succ_nil_cons, ih]; rfl

lemma cycleTake_single (c : ℚ) (n : ℕ) :
    cycleTake [c] n [c] = List.replicate n c := by
  cases n with
  | zero => rfl
  | succ m => rw [cycleTake_succ_cons, cycleTake_single_nil]; rfl

lemma foldl_min_le_init (l : List ℚ) (a : ℚ) : l.foldl min a ≤ a := by
  induction l generalizing a with
  | nil => simp
  | cons b t ih =>
    calc (b :: t).foldl min a = t.foldl min (min a b) := rfl
    _ ≤ min a b := ih (min a b)
    _ ≤ a := min_le_left a b

lemma foldl_min_le_of_mem {x : ℚ} {l : List ℚ} (h : x ∈ l) (a : ℚ) :
    l.foldl min a ≤ x := by
  induction l generalizing a with
  | nil => cases h
  | cons b t ih =>
    rcases List.mem_cons.mp h with rfl | hx
    · calc (x :: t).foldl min a = t.foldl min (min a x) := rfl
      _ ≤ min a x := foldl_min_le_init t (min a x)
      _ ≤ x := min_le_right a x
    · exact ih hx (min a b)

lemma init_le_foldl_max (l : List ℚ) (a : ℚ) : a ≤ l.foldl max a := by
  induction l generalizing a with
  | nil => simp
  | cons b t ih =>
    calc a ≤ max a b := le_max_left a b
    _ ≤ t.foldl max (max a b) := ih (max a b)
    _ = (b :: t).foldl max a := rfl

lemma le_foldl_max_of_mem {x : ℚ} {l : List ℚ} (h : x ∈ l) (a : ℚ) :
    x ≤ l.foldl max a := by
  induction l generalizing a with
  | nil => cases h
  | cons b t ih =>
    rcases List.mem_cons.mp h with rfl | hx
    · calc x ≤ max a x := le_max_right a x
      _ ≤ t.foldl max (max a x) := init_le_foldl_max t (max a x)
      _ = (x :: t).foldl max a := rfl
    · exact ih hx (max a b)

lemma arrMin_le_of_mem {x : ℚ} {xs : List ℚ} (h : x ∈ xs) : arrMin xs ≤ x := by
  cases xs with
  | nil => cases h
  | cons a rest =>
    rcases List.mem_cons.mp h with rfl | hx
    · exact foldl_min_le_init rest x
    · exact foldl_min_le_of_mem hx a

lemma le_arrMax_of_mem {x : ℚ} {xs : List ℚ} (h : x ∈ xs) : x ≤ arrMax xs := by
  cases xs with
  | nil => cases h
  | cons a rest =>
    rcases List.mem_cons.mp h with rfl | hx
    · exact init_le_foldl_max rest x
    · exact le_foldl_max_of_mem hx a

lemma arrMin_replicate (n : ℕ) (c : ℚ) : arrMin (List.replicate (n + 1) c) = c := by
  rw [List.replicate_succ]
  show (List.replicate n c).foldl min c = c
  induction n with
  | zero => rfl
  | succ m ih =>
    rw [List.replicate_succ]
    show (List.replicate m c).foldl min (min c c) = c
    rw [min_self]
    exact ih

lemma arrMax_replicate (n : ℕ) (c : ℚ) : arrMax (List.replicate (n + 1) c) = c := by
  rw [List.replicate_succ]
  show (List.replicate n c).foldl max c = c
  induction n with
  | zero => rfl
  | succ m ih =>
    rw [List.replicate_succ]
    show (List.replicate m c).foldl max (max c c) = c
    rw [max_self]
    exact ih

lemma normalizeData_replicate (n : ℕ) (c : ℚ) :
    normalizeData (List.replicate (n + 1) c) = List.replicate (n + 1) none := by
  unfold normalizeData
  rw [arrMin_replicate, arrMax_replicate]
  simp

/-! ### Unfolding lemmas for the endpoint -/

lemma audio_to_spectrogram_eq_some {logMel : List ℕ → Option (List ℚ)}
    {file_bytes : List ℕ} {s : NDArray}
    (h : audio_to_spectrogram logMel file_bytes = some s) :
    ∃ flat, logMel file_bytes = some flat ∧
      s = ⟨[128, 128], normalizeData (npResizeData flat (128 * 128))⟩ := by
  unfold audio_to_spectrogram at h
  cases hl : logMel file_bytes with
  | none => rw [hl] at h; cases h
  | some flat =>
    rw [hl] at h
    injection h with h
    exact ⟨flat, rfl, h.symm⟩

lemma predict_audio_eq_of_spect (m : NDArray → ℚ) (logMel : List ℕ → Option (List ℚ))
    (file_bytes : List ℕ) (s : NDArray)
    (h : audio_to_spectrogram logMel file_bytes = some s) :
    predict_audio (some m) logMel file_bytes =
      if m (addBatchChannel s) < 1/2 then
        Response.prediction "HUMAN" (pyRound2 ((1 - m (addBatchChannel s)) * 100))
      else
        Response.prediction "AI-GENERATED" (pyRound2 (m (addBatchChannel s) * 100)) := by
  unfold predict_audio
  rw [h]

/-! ### Concrete inputs used by witnesses and counterexamples -/

/-- A model whose scalar output is always 0. -/
def mZero : NDArray → ℚ := fun _ => 0

/-- A model whose scalar output is exactly the decision threshold. -/
def mHalf : NDArray → ℚ := fun _ => 1/2

/-- A model whose scalar output is always 3/4. -/
def mThreeQuarters : NDArray → ℚ := fun _ => 3/4

/-- A feature-extractor front end producing the constant log-mel value
list `[0]` (what silent audio produces after `power_to_db` with
`ref=np.max` and top-db clamping). -/
def logMelZeroRow : List ℕ → Option (List ℚ) := fun _ => some [0]

/-- A feature-extractor front end producing the two-valued list `[0, 1]`. -/
def logMelZeroOne : List ℕ → Option (List ℚ) := fun _ => some [0, 1]

/-- The spectrogram value `audio_to_spectrogram logMelZeroRow` yields. -/
def spect0 : NDArray := ⟨[128, 128], normalizeData (npResizeData [0] (128 * 128))⟩

lemma resize01_eq :
    npResizeData [0, 1] (128 * 128) = 0 :: 1 :: cycleTake [0, 1] 16382 [] := by
  show cycleTake [0, 1] (128 * 128) [0, 1] = _
  have e1 : (128 * 128 : ℕ) = 16383 + 1 := by norm_num
  rw [e1, cycleTake_succ_cons]
  have e2 : (16383 : ℕ) = 16382 + 1 := by norm_num
  rw [e2, cycleTake_succ_cons]

lemma resize01_min_ne_max :
    arrMin (npResizeData [0, 1] (128 * 128)) ≠ arrMax (npResizeData [0, 1] (128 * 128)) := by
  have h0 : (0 : ℚ) ∈ npResizeData [0, 1] (128 * 128) := by
    rw [resize01_eq]; exact List.mem_cons_self _ _
  have h1 : (1 : ℚ) ∈ npResizeData [0, 1] (128 * 128) := by
    rw [resize01_eq]; exact List.mem_cons_of_mem _ (List.mem_cons_self _ _)
  have ha := arrMin_le_of_mem h0
  have hb := le_arrMax_of_mem h1
  intro he
  rw [he] at ha
  linarith

/-! ### Claim theorems -/

/-- C1: when the model is loaded and feature extraction succeeds, the
response is obtained by thresholding the scalar model output at 0.5:
strictly below the threshold the label is "HUMAN", otherwise it is
"AI-GENERATED", and in both cases the body carries a confidence
percentage. -/
theorem c1_threshold_label (m : NDArray → ℚ) (logMel : List ℕ → Option (List ℚ))
    (file_bytes : List ℕ) (s : NDArray)
    (h : audio_to_spectrogram logMel file_bytes = some s) :
    (m (addBatchChannel s) < 1/2 →
      predict_audio (some m) logMel file_bytes =
        Response.prediction "HUMAN" (pyRound2 ((1 - m (addBatchChannel s)) * 100))) ∧
    (¬ m (addBatchChannel s) < 1/2 →
      predict_audio (some m) logMel file_bytes =
        Response.prediction "AI-GENERATED" (pyRound2 (m (addBatchChannel s) * 100))) := by
  rw [predict_audio_eq_of_spect m logMel file_bytes s h]
  constructor
  · intro hp; rw [if_pos hp]
  · intro hp; rw [if_neg hp]

/-- Witness for C1 at a concrete model and input: a model output of 0
yields the "HUMAN" label with confidence 100. -/
theorem c1_threshold_label_witness :
    predict_audio (some mZero) logMelZeroRow [] =
      Response.prediction "HUMAN" (pyRound2 ((1 - 0) * 100)) :=
  (c1_threshold_label mZero logMelZeroRow [] spect0 rfl).1 (by norm_num [mZero])

/-- C4: if the model failed to load at startup, every prediction
request is answered with status 500 and the fixed error body; the
result does not depend on the feature extractor or on the uploaded
bytes, so neither extraction nor inference is consulted. -/
theorem c4_model_not_loaded (logMel : List ℕ → Option (List ℚ)) (file_bytes : List ℕ) :
    predict_audio none logMel file_bytes =
      Response.error 500 "Model not loaded on server." := rfl

/-- C5: whenever feature extraction succeeds, the spectrogram it
returns has shape 128 x 128 — 128 * 128 data entries — whatever the
length of the log-mel array (and hence the duration or sample rate of
the audio). -/
theorem c5_shape (logMel : List ℕ → Option (List ℚ)) (file_bytes : List ℕ)
    (s : NDArray) (h : audio_to_spectrogram logMel file_bytes = some s) :
    s.shape = [128, 128] ∧ s.data.length = 128 * 128 := by
  obtain ⟨flat, hl, rfl⟩ := audio_to_spectrogram_eq_some h
  refine ⟨rfl, ?_⟩
  show (normalizeData (npResizeData flat (128 * 128))).length = 128 * 128
  rw [normalizeData_length, npResizeData_length]

/-- Witness for C5 at a concrete input: an empty log-mel array still
produces a 128 x 128 spectrogram. -/
theorem c5_shape_witness :
    (NDArray.mk [128, 128] (normalizeData (npResizeData [] (128 * 128)))).shape = [128, 128] ∧
    (NDArray.mk [128, 128] (normalizeData (npResizeData [] (128 * 128)))).data.length = 128 * 128 :=
  c5_shape (fun _ => some []) [] _ rfl

/-- C6: on every successful prediction the tensor handed to the
model's forward pass is the feature-extractor output with a batch
axis prepended and a channel axis appended — shape (1, 128, 128, 1)
and unchanged data — and the response is computed from the model's
scalar output on exactly that tensor. -/
theorem c6_batch_channel (m : NDArray → ℚ) (logMel : List ℕ → Option (List ℚ))
    (file_bytes : List ℕ) (s : NDArray)
    (h : audio_to_spectrogram logMel file_bytes = some s) :
    (addBatchChannel s).shape = [1, 128, 128, 1] ∧
    (addBatchChannel s).data = s.data ∧
    predict_audio (some m) logMel file_bytes =
      (if m (addBatchChannel s) < 1/2 then
        Response.prediction "HUMAN" (pyRound2 ((1 - m (addBatchChannel s)) * 100))
      else
        Response.prediction "AI-GENERATED" (pyRound2 (m (addBatchChannel s) * 100))) := by
  refine ⟨?_, rfl, predict_audio_eq_of_spect m logMel file_bytes s h⟩
  obtain ⟨flat, hl, rfl⟩ := audio_to_spectrogram_eq_some h
  rfl

/-- Witness for C6 at a concrete model and input. -/
theorem c6_batch_channel_witness :
    (addBatchChannel spect0).shape = [1, 128, 128, 1] ∧
    (addBatchChannel spect0).data = spect0.data ∧
    predict_audio (some mZero) logMelZeroRow [] =
      (if mZero (addBatchChannel spect0) < 1/2 then
        Response.prediction "HUMAN" (pyRound2 ((1 - mZero (addBatchChannel spect0)) * 100))
      else
        Response.prediction "AI-GENERATED" (pyRound2 (mZero (addBatchChannel spect0) * 100))) :=
  c6_batch_channel mZero logMelZeroRow [] spect0 rfl

/-- C7: the prediction endpoint is deterministic for a fixed loaded
model and feature extractor — byte-for-byte identical uploads get
identical responses.  Every piece of the handler is embedded as a
pure function, so the property is congruence. -/
theorem c7_deterministic (m : NDArray → ℚ) (logMel : List ℕ → Option (List ℚ))
    (b1 b2 : List ℕ) (h : b1 = b2) :
    predict_audio (some m) logMel b1 = predict_audio (some m) logMel b2 := by
  rw [h]

/-- Witness for C7 at concrete identical uploads. -/
theorem c7_deterministic_witness :
    predict_audio (some mZero) logMelZeroRow [1, 2, 3] =
      predict_audio (some mZero) logMelZeroRow [1, 2, 3] :=
  c7_deterministic mZero logMelZeroRow [1, 2, 3] [1, 2, 3] rfl

/-- C8: every GET request to the root endpoint returns the same static
message, whatever the model state and feature extractor. -/
theorem c8_root_static (model : Option (NDArray → ℚ)) (logMel : List ℕ → Option (List ℚ)) :
    handle_request model logMel Request.getRoot =
      Response.message "🎧 Deepfake Audio Detector API is running!" := rfl

/-- C9: when the feature extractor cannot process the upload, the
endpoint answers 400 with the fixed error body; the result holds for
every model function, so the forward pass is never consulted. -/
theorem c9_bad_audio (m : NDArray → ℚ) (logMel : List ℕ → Option (List ℚ))
    (file_bytes : List ℕ) (h : audio_to_spectrogram logMel file_bytes = none) :
    predict_audio (some m) logMel file_bytes =
      Response.error 400 "Could not process audio file." := by
  unfold predict_audio
  rw [h]

/-- Witness for C9 at a concrete failing extractor. -/
theorem c9_bad_audio_witness :
    predict_audio (some mZero) (fun _ => none) [] =
      Response.error 400 "Could not process audio file." :=
  c9_bad_audio mZero (fun _ => none) [] rfl

/-- C2 is false as stated: the claim wants the confidence to be a
scaling of the distance |p - 0.5| that maps the threshold itself to 0,
but at model output exactly 0.5 the endpoint returns confidence 50,
not 0 (`pred * 100` on the else branch of line 100-102). -/
theorem c2_counterexample :
    predict_audio (some mHalf) logMelZeroRow [] =
      Response.prediction "AI-GENERATED" 50 ∧ (50 : ℚ) ≠ 0 := by
  refine ⟨?_, by norm_num⟩
  rw [predict_audio_eq_of_spect mHalf logMelZeroRow [] spect0 rfl]
  rw [show mHalf (addBatchChannel spect0) = 1/2 from rfl]
  rw [if_neg (lt_irrefl _)]
  norm_num [pyRound2, round_eq]

/-- C2 (amended): the confidence is a function of the distance of the
model output p from the threshold — it equals
round2((1/2 + |p - 1/2|) * 100), an affine scaling of |p - 1/2| to a
percentage that maps the threshold itself to 50, not to 0. -/
theorem c2_confidence_distance (m : NDArray → ℚ) (logMel : List ℕ → Option (List ℚ))
    (file_bytes : List ℕ) (s : NDArray)
    (h : audio_to_spectrogram logMel file_bytes = some s) :
    ∃ label, predict_audio (some m) logMel file_bytes =
      Response.prediction label
        (pyRound2 ((1/2 + |m (addBatchChannel s) - 1/2|) * 100)) := by
  rw [predict_audio_eq_of_spect m logMel file_bytes s h]
  by_cases hp : m (addBatchChannel s) < 1/2
  · refine ⟨"HUMAN", ?_⟩
    rw [if_pos hp]
    have he : 1/2 + |m (addBatchChannel s) - 1/2| = 1 - m (addBatchChannel s) := by
      rw [abs_of_neg (by linarith)]
      ring
    rw [he]
  · refine ⟨"AI-GENERATED", ?_⟩
    rw [if_neg hp]
    have he : 1/2 + |m (addBatchChannel s) - 1/2| = m (addBatchChannel s) := by
      rw [abs_of_nonneg (by linarith)]
      ring
    rw [he]

/-- Witness for the amended C2 at a concrete model output of 3/4. -/
theorem c2_confidence_distance_witness :
    ∃ label, predict_audio (some mThreeQuarters) logMelZeroRow [] =
      Response.prediction label
        (pyRound2 ((1/2 + |mThreeQuarters (addBatchChannel spect0) - 1/2|) * 100)) :=
  c2_confidence_distance mThreeQuarters logMelZeroRow [] spect0 rfl

/-- C3 is false as stated: an upload whose log-mel array is constant
(what pure silence produces: `power_to_db` with `ref=np.max` maps an
all-zero power spectrogram to an all-zero dB array) is processed to a
non-None result, yet min-max normalization divides 0 by 0 and every
entry is NaN rather than a number in [0, 1]. -/
theorem c3_counterexample :
    ∃ s : NDArray, audio_to_spectrogram (fun _ => some [-3]) [] = some s ∧
      ¬ (∀ e ∈ s.data, ∃ v : ℚ, e = some v ∧ 0 ≤ v ∧ v ≤ 1) := by
  refine ⟨_, rfl, ?_⟩
  intro hall
  have hdata : normalizeData (npResizeData [-3] (128 * 128)) =
      List.replicate (128 * 128) none := by
    rw [show npResizeData [-3] (128 * 128) = cycleTake [-3] (128 * 128) [-3] from rfl]
    rw [cycleTake_single]
    have e : (128 * 128 : ℕ) = 16383 + 1 := by norm_num
    rw [e, normalizeData_replicate]
  have hmem : (none : Option ℚ) ∈
      (NDArray.mk [128, 128] (normalizeData (npResizeData [-3] (128 * 128)))).data := by
    show (none : Option ℚ) ∈ normalizeData (npResizeData [-3] (128 * 128))
    rw [hdata]
    exact List.mem_replicate.mpr ⟨by norm_num, rfl⟩
  obtain ⟨v, hv, -, -⟩ := hall none hmem
  exact Option.noConfusion hv

/-- C3 (amended): whenever the resized log-mel array is not constant
(its minimum and maximum differ), every entry of the returned
spectrogram is a finite value in [0, 1]; on a constant array the
normalization divides zero by zero and the entries are NaN instead. -/
theorem c3_normalized_range (logMel : List ℕ → Option (List ℚ)) (file_bytes : List ℕ)
    (flat : List ℚ) (hl : logMel file_bytes = some flat)
    (hne : arrMin (npResizeData flat (128 * 128)) ≠ arrMax (npResizeData flat (128 * 128))) :
    ∃ s : NDArray, audio_to_spectrogram logMel file_bytes = some s ∧
      ∀ e ∈ s.data, ∃ v : ℚ, e = some v ∧ 0 ≤ v ∧ v ≤ 1 := by
  refine ⟨⟨[128, 128], normalizeData (npResizeData flat (128 * 128))⟩, ?_, ?_⟩
  · unfold audio_to_spectrogram
    rw [hl]
  · intro e he
    have he' : e ∈ (npResizeData flat (128 * 128)).map fun x =>
        if arrMax (npResizeData flat (128 * 128)) - arrMin (npResizeData flat (128 * 128)) = 0
        then none
        else some ((x - arrMin (npResizeData flat (128 * 128))) /
          (arrMax (npResizeData flat (128 * 128)) - arrMin (npResizeData flat (128 * 128)))) := he
    obtain ⟨x, hx, rfl⟩ := List.mem_map.mp he'
    have hmn : arrMin (npResizeData flat (128 * 128)) ≤ x := arrMin_le_of_mem hx
    have hmx : x ≤ arrMax (npResizeData flat (128 * 128)) := le_arrMax_of_mem hx
    have hlt : 0 < arrMax (npResizeData flat (128 * 128)) -
        arrMin (npResizeData flat (128 * 128)) := by
      rcases lt_or_eq_of_le (le_trans hmn hmx) with h' | h'
      · linarith
      · exact absurd h' hne
    rw [if_neg (by intro h0; linarith)]
    refine ⟨_, rfl, ?_, ?_⟩
    · exact div_nonneg (by linarith) (le_of_lt hlt)
    · rw [div_le_one hlt]
      linarith

/-- Witness for the amended C3 at the concrete two-valued log-mel
array [0, 1]. -/
theorem c3_normalized_range_witness :
    ∃ s : NDArray, audio_to_spectrogram logMelZeroOne [] = some s ∧
      ∀ e ∈ s.data, ∃ v : ℚ, e = some v ∧ 0 ≤ v ∧ v ≤ 1 :=
  c3_normalized_range logMelZeroOne [] [0, 1] rfl resize01_min_ne_max

lemma pyRound2_mono {x y : ℚ} (h : x ≤ y) : pyRound2 x ≤ pyRound2 y := by
  unfold pyRound2
  have hr : round (x * 100) ≤ round (y * 100) := by
    rw [round_eq, round_eq]
    exact Int.floor_le_floor (by linarith)
  have hc : ((round (x * 100) : ℤ) : ℚ) ≤ ((round (y * 100) : ℤ) : ℚ) := by
    exact_mod_cast hr
  linarith

lemma pyRound2_fifty : pyRound2 50 = 50 := by
  unfold pyRound2
  rw [show (50 : ℚ) * 100 = ((5000 : ℤ) : ℚ) by norm_num, round_intCast]
  norm_num

lemma pyRound2_hundred : pyRound2 100 = 100 := by
  unfold pyRound2
  rw [show (100 : ℚ) * 100 = ((10000 : ℤ) : ℚ) by norm_num, round_intCast]
  norm_num

/-- C10: for a model output p with 0 ≤ p ≤ 1, the returned confidence
is exactly round2 of max(p, 1 - p) scaled to a percentage, and it
always lies between 50 and 100 inclusive — a confidence below 50 is
never returned. -/
theorem c10_confidence_bounds (m : NDArray → ℚ) (logMel : List ℕ → Option (List ℚ))
    (file_bytes : List ℕ) (s : NDArray)
    (h : audio_to_spectrogram logMel file_bytes = some s)
    (h0 : 0 ≤ m (addBatchChannel s)) (h1 : m (addBatchChannel s) ≤ 1) :
    ∃ label, predict_audio (some m) logMel file_bytes =
      Response.prediction label
        (pyRound2 (max (m (addBatchChannel s)) (1 - m (addBatchChannel s)) * 100)) ∧
      50 ≤ pyRound2 (max (m (addBatchChannel s)) (1 - m (addBatchChannel s)) * 100) ∧
      pyRound2 (max (m (addBatchChannel s)) (1 - m (addBatchChannel s)) * 100) ≤ 100 := by
  rw [predict_audio_eq_of_spect m logMel file_bytes s h]
  have hmax50 : 50 ≤ max (m (addBatchChannel s)) (1 - m (addBatchChannel s)) * 100 := by
    rcases le_or_lt (1/2) (m (addBatchChannel s)) with hh | hh
    · have hle := le_max_left (m (addBatchChannel s)) (1 - m (addBatchChannel s))
      linarith
    · have hle := le_max_right (m (addBatchChannel s)) (1 - m (addBatchChannel s))
      linarith
  have hmax100 : max (m (addBatchChannel s)) (1 - m (addBatchChannel s)) * 100 ≤ 100 := by
    have hle : max (m (addBatchChannel s)) (1 - m (addBatchChannel s)) ≤ 1 :=
      max_le h1 (by linarith)
    linarith
  have hb1 : 50 ≤ pyRound2 (max (m (addBatchChannel s)) (1 - m (addBatchChannel s)) * 100) :=
    le_trans (le_of_eq pyRound2_fifty.symm) (pyRound2_mono hmax50)
  have hb2 : pyRound2 (max (m (addBatchChannel s)) (1 - m (addBatchChannel s)) * 100) ≤ 100 :=
    le_trans (pyRound2_mono hmax100) (le_of_eq pyRound2_hundred)
  by_cases hc : m (addBatchChannel s) < 1/2
  · refine ⟨"HUMAN", ?_, hb1, hb2⟩
    rw [if_pos hc, max_eq_right (by linarith : m (addBatchChannel s) ≤ 1 - m (addBatchChannel s))]
  · refine ⟨"AI-GENERATED", ?_, hb1, hb2⟩
    rw [if_neg hc, max_eq_left (by linarith [not_lt.mp hc] : 1 - m (addBatchChannel s) ≤ m (addBatchChannel s))]

/-- Witness for C10 at a concrete model output of 3/4. -/
theorem c10_confidence_bounds_witness :
    ∃ label, predict_audio (some mThreeQuarters) logMelZeroRow [] =
      Response.prediction label
        (pyRound2 (max (mThreeQuarters (addBatchChannel spect0))
          (1 - mThreeQuarters (addBatchChannel spect0)) * 100)) ∧
      50 ≤ pyRound2 (max (mThreeQuarters (addBatchChannel spect0))
        (1 - mThreeQuarters (addBatchChannel spect0)) * 100) ∧
      pyRound2 (max (mThreeQuarters (addBatchChannel spect0))
        (1 - mThreeQuarters (addBatchChannel spect0)) * 100) ≤ 100 :=
  c10_confidence_bounds mThreeQuarters logMelZeroRow [] spect0 rfl
    (by norm_num [mThreeQuarters]) (by norm_num [mThreeQuarters])
